import Mathlib

/-
Verification of `src/staircase/walk.py` (multi-contact MPC walking demo).

Shallow embedding conventions:
* `float` values are modelled as real numbers (`ℝ`).
* `numpy.random.random(3)` draws are modelled by an explicit stream
  `u : ℕ → ℝ` of values in `[0, 1)`; the generator consumes six values per
  loop iteration (three for the left foot, three for the right foot), so
  iteration `k` reads indices `6*k .. 6*k+5` in call order.
* fallible calls are modelled with `Option` (`none` = the call raises).
* in-place list mutation is modelled by returning the new list.
-/

namespace Walk

/-- Three-dimensional vector (position, rpy orientation, force). -/
abbrev Vec3 := ℝ × ℝ × ℝ

/-- Contact surface as constructed by `pymanoid.Contact(X, Y, pos, rpy,
friction, visible)` in `generate_staircase`: half-extents `X`/`Y`, world
position, roll-pitch-yaw orientation, friction coefficient, visibility. -/
structure Contact where
  X : ℝ
  Y : ℝ
  pos : Vec3
  rpy : Vec3
  friction : ℝ
  visible : Bool

/-- Random stream backing `numpy.random.random`: the `i`-th scalar drawn. -/
abbrev RandStream := ℕ → ℝ

/-- Model of `numpy.arange(start, stop, step)` on reals: the arithmetic
sequence `start + i*step` of length `max(ceil((stop-start)/step), 0)`.
`numpy` raises `ZeroDivisionError` when `step = 0`, modelled as `none`. -/
noncomputable def arange (start stop step : ℝ) : Option (List ℝ) :=
  if step = 0 then none
  else some ((List.range ⌈(stop - start) / step⌉₊).map fun i : ℕ => start + (i : ℝ) * step)

/-- Left-foot contact built at loop iteration `k` for angle `theta`
(`walk.py` lines 92-101): position `(r·cosθ, r·sinθ, r + 0.5·h·sinθ)`, rpy
`roughness·(random(3) - 0.5) + [0, 0, θ + 0.5·π]`. -/
noncomputable def leftFootContact (radius height roughness friction step_dim_x step_dim_y : ℝ)
    (u : RandStream) (k : ℕ) (theta : ℝ) : Contact where
  X := step_dim_x
  Y := step_dim_y
  pos := (radius * Real.cos theta, radius * Real.sin theta,
          radius + 0.5 * height * Real.sin theta)
  rpy := (roughness * (u (6 * k) - 0.5),
          roughness * (u (6 * k + 1) - 0.5),
          roughness * (u (6 * k + 2) - 0.5) + (theta + 0.5 * Real.pi))
  friction := friction
  visible := true

/-- Right-foot contact built at loop iteration `k` for angle `theta`
(`walk.py` lines 102-111): position at radius `1.3·r` and offset angle
`θ + 0.5·angular_step`, height formula at the offset angle, but rpy
`roughness·(random(3) - 0.5) + [0, 0, θ + 0.5·π]` at the base angle. -/
noncomputable def rightFootContact (radius angular_step height roughness friction
    step_dim_x step_dim_y : ℝ) (u : RandStream) (k : ℕ) (theta : ℝ) : Contact where
  X := step_dim_x
  Y := step_dim_y
  pos := (1.3 * radius * Real.cos (theta + 0.5 * angular_step),
          1.3 * radius * Real.sin (theta + 0.5 * angular_step),
          radius + 0.5 * height * Real.sin (theta + 0.5 * angular_step))
  rpy := (roughness * (u (6 * k + 3) - 0.5),
          roughness * (u (6 * k + 4) - 0.5),
          roughness * (u (6 * k + 5) - 0.5) + (theta + 0.5 * Real.pi))
  friction := friction
  visible := true

/-- Model of `generate_staircase` (`walk.py` lines 75-114): for each
`theta` in `arange(0, 2π, angular_step)` append the left-foot contact and
then the right-foot contact. `none` models the `ZeroDivisionError` that
`arange` raises when `angular_step = 0`. -/
noncomputable def generate_staircase (radius angular_step height roughness friction
    step_dim_x step_dim_y : ℝ) (u : RandStream) : Option (List Contact) :=
  (arange 0 (2 * Real.pi) angular_step).map fun thetas =>
    thetas.enum.flatMap fun kt =>
      [leftFootContact radius height roughness friction step_dim_x step_dim_y u kt.1 kt.2,
       rightFootContact radius angular_step height roughness friction step_dim_x step_dim_y
         u kt.1 kt.2]

/-- Number of loop iterations of `generate_staircase` for a given
`angular_step` (the length of `arange(0, 2π, angular_step)`). -/
noncomputable def numSteps (angular_step : ℝ) : ℕ :=
  ⌈2 * Real.pi / angular_step⌉₊

/-- Length of a flat list of two-element blocks over `List.range n`. -/
theorem flatMap_pair_length {α : Type} (a b : ℕ → α) (n : ℕ) :
    ((List.range n).flatMap fun k => [a k, b k]).length = 2 * n := by
  induction n with
  | zero => simp
  | succ n ih =>
    rw [List.range_succ, List.flatMap_append, List.length_append, ih]
    simp
    omega

/-- Element `2*k` of a flat list of two-element blocks is the left member. -/
theorem flatMap_pair_getElem_left {α : Type} (a b : ℕ → α) (n k : ℕ) (hk : k < n) :
    ((List.range n).flatMap fun k => [a k, b k])[2 * k]? = some (a k) := by
  induction n with
  | zero => omega
  | succ n ih =>
    rw [List.range_succ, List.flatMap_append]
    rcases Nat.lt_succ_iff_lt_or_eq.mp hk with h | h
    · rw [List.getElem?_append_left (by rw [flatMap_pair_length]; omega)]
      exact ih h
    · subst h
      rw [List.getElem?_append_right (by rw [flatMap_pair_length])]
      rw [flatMap_pair_length]
      simp

/-- Element `2*k + 1` of a flat list of two-element blocks is the right member. -/
theorem flatMap_pair_getElem_right {α : Type} (a b : ℕ → α) (n k : ℕ) (hk : k < n) :
    ((List.range n).flatMap fun k => [a k, b k])[2 * k + 1]? = some (b k) := by
  induction n with
  | zero => omega
  | succ n ih =>
    rw [List.range_succ, List.flatMap_append]
    rcases Nat.lt_succ_iff_lt_or_eq.mp hk with h | h
    · rw [List.getElem?_append_left (by rw [flatMap_pair_length]; omega)]
      exact ih h
    · subst h
      rw [List.getElem?_append_right (by rw [flatMap_pair_length]; omega)]
      rw [flatMap_pair_length]
      simp

/-- Enumerating a mapped range pairs each index with its image. -/
theorem enum_map_range {α : Type} (f : ℕ → α) (n : ℕ) :
    ((List.range n).map f).enum = (List.range n).map fun i => (i, f i) := by
  apply List.ext_getElem?
  intro i
  rcases Nat.lt_or_ge i n with h | h
  · rw [List.getElem?_enum, List.getElem?_map, List.getElem?_map,
      List.getElem?_range h]
    rfl
  · rw [List.getElem?_enum, List.getElem?_map, List.getElem?_map,
      List.getElem?_eq_none (by simpa using h)]
    rfl

/-- Closed form of `generate_staircase` for a nonzero angular step: the flat
list of left/right contact pairs over iterations `k < numSteps angular_step`,
with angle `k * angular_step` at iteration `k`. -/
theorem generate_staircase_eq (radius angular_step height roughness friction
    step_dim_x step_dim_y : ℝ) (u : RandStream) (h : angular_step ≠ 0) :
    generate_staircase radius angular_step height roughness friction
        step_dim_x step_dim_y u =
      some ((List.range (numSteps angular_step)).flatMap fun k =>
        [leftFootContact radius height roughness friction step_dim_x step_dim_y u k
           (k * angular_step),
         rightFootContact radius angular_step height roughness friction step_dim_x step_dim_y u k
           (k * angular_step)]) := by
  unfold generate_staircase arange numSteps
  rw [if_neg h, Option.map_some']
  congr 1
  rw [sub_zero, enum_map_range, List.flatMap_map]
  simp [Function.comp]

/-- General shape of a successful `generate_staircase` call: `2 * numSteps`
surfaces, all with the requested friction coefficient and half-extents. -/
theorem generate_staircase_spec (radius angular_step height roughness friction
    step_dim_x step_dim_y : ℝ) (u : RandStream) (h : angular_step ≠ 0) :
    ∃ l, generate_staircase radius angular_step height roughness friction
        step_dim_x step_dim_y u = some l ∧
      l.length = 2 * numSteps angular_step ∧
      ∀ c ∈ l, c.friction = friction ∧ c.X = step_dim_x ∧ c.Y = step_dim_y := by
  refine ⟨_, generate_staircase_eq radius angular_step height roughness friction
    step_dim_x step_dim_y u h, flatMap_pair_length _ _ _, ?_⟩
  intro c hc
  rw [List.mem_flatMap] at hc
  obtain ⟨k, -, hc⟩ := hc
  simp only [List.mem_cons, List.not_mem_nil, or_false] at hc
  rcases hc with hc | hc <;> subst hc <;> exact ⟨rfl, rfl, rfl⟩

/-- Value of the iteration count at the `__main__` parameters:
`ceil(2π / 0.5) = ceil(4π) = 13`. -/
theorem numSteps_main : numSteps 0.5 = 13 := by
  unfold numSteps
  have h4 : 2 * Real.pi / 0.5 = 4 * Real.pi := by ring
  rw [h4, Nat.ceil_eq_iff (by norm_num)]
  constructor
  · push_cast
    nlinarith [Real.pi_gt_three]
  · push_cast
    nlinarith [Real.pi_lt_d2]

/-- C1: for every parameter tuple with `0 < angular_step < 2π`,
`generate_staircase` returns exactly `2 * ⌈2π / angular_step⌉₊` contact
surfaces, each with the given friction coefficient and half-extents
`(step_dim_x, step_dim_y)`; in particular, for `radius = 1.4`,
`angular_step = 0.5`, `height = 1.4`, `roughness = 0.5`, `friction = 0.7`,
`step_dim_x = 0.2`, `step_dim_y = 0.1` it returns exactly 26 surfaces, each
with friction `0.7` and half-extents `(0.2, 0.1)`. -/
theorem C1_staircase_count (radius angular_step height roughness friction
    step_dim_x step_dim_y : ℝ) (u : RandStream) (h0 : 0 < angular_step)
    (h2 : angular_step < 2 * Real.pi) :
    (∃ l, generate_staircase radius angular_step height roughness friction
        step_dim_x step_dim_y u = some l ∧
      l.length = 2 * ⌈2 * Real.pi / angular_step⌉₊ ∧
      ∀ c ∈ l, c.friction = friction ∧ c.X = step_dim_x ∧ c.Y = step_dim_y) ∧
    ∀ u' : RandStream,
      ∃ l, generate_staircase 1.4 0.5 1.4 0.5 0.7 0.2 0.1 u' = some l ∧
        l.length = 26 ∧ ∀ c ∈ l, c.friction = 0.7 ∧ c.X = 0.2 ∧ c.Y = 0.1 := by
  constructor
  · exact generate_staircase_spec radius angular_step height roughness friction
      step_dim_x step_dim_y u (ne_of_gt h0)
  · intro u'
    obtain ⟨l, hl, hlen, hmem⟩ := generate_staircase_spec 1.4 0.5 1.4 0.5 0.7 0.2 0.1 u'
      (by norm_num)
    exact ⟨l, hl, by rw [hlen, numSteps_main], hmem⟩

/-- Witness for C1 at the `__main__` parameters with the zero stream. -/
theorem C1_staircase_count_witness :
    (0:ℝ) < 0.5 ∧ (0.5:ℝ) < 2 * Real.pi ∧
    ∃ l, generate_staircase 1.4 0.5 1.4 0.5 0.7 0.2 0.1 (fun _ => 0) = some l ∧
      l.length = 26 ∧ ∀ c ∈ l, c.friction = 0.7 ∧ c.X = 0.2 ∧ c.Y = 0.1 := by
  have h0 : (0:ℝ) < 0.5 := by norm_num
  have h2 : (0.5:ℝ) < 2 * Real.pi := by nlinarith [Real.pi_gt_three]
  exact ⟨h0, h2,
    (C1_staircase_count 1.4 0.5 1.4 0.5 0.7 0.2 0.1 (fun _ => 0) h0 h2).2 (fun _ => 0)⟩

/-- Positivity of the iteration count at `angular_step = 1`. -/
theorem numSteps_one_pos : 0 < numSteps 1 := by
  unfold numSteps
  rw [div_one]
  exact Nat.ceil_pos.mpr (by positivity)

/-- Nonzero angular step whenever at least one iteration happens. -/
theorem angular_step_ne_zero_of_lt_numSteps {angular_step : ℝ} {k : ℕ}
    (hk : k < numSteps angular_step) : angular_step ≠ 0 := by
  intro h
  subst h
  simp [numSteps] at hk

/-- C2 (amended): the right surface of iteration `k` (list element `2*k+1`)
sits at radius `1.3 * radius` and offset angle `θ + angular_step/2`, and its
height is given by the same formula as the left surface evaluated at the
offset angle, but its yaw base is `θ + π/2` at the base angle `θ` of the
iteration, not at the offset angle (plus the per-axis roughness
perturbation). -/
theorem C2_right_surface (radius angular_step height roughness friction
    step_dim_x step_dim_y : ℝ) (u : RandStream) (k : ℕ)
    (hk : k < numSteps angular_step) :
    ∃ l, generate_staircase radius angular_step height roughness friction
        step_dim_x step_dim_y u = some l ∧
      l[2 * k + 1]? = some
        { X := step_dim_x
          Y := step_dim_y
          pos := (1.3 * radius * Real.cos ((k : ℝ) * angular_step + 0.5 * angular_step),
                  1.3 * radius * Real.sin ((k : ℝ) * angular_step + 0.5 * angular_step),
                  radius + 0.5 * height *
                    Real.sin ((k : ℝ) * angular_step + 0.5 * angular_step))
          rpy := (roughness * (u (6 * k + 3) - 0.5),
                  roughness * (u (6 * k + 4) - 0.5),
                  roughness * (u (6 * k + 5) - 0.5) + ((k : ℝ) * angular_step + 0.5 * Real.pi))
          friction := friction
          visible := true } := by
  refine ⟨_, generate_staircase_eq radius angular_step height roughness friction
    step_dim_x step_dim_y u (angular_step_ne_zero_of_lt_numSteps hk), ?_⟩
  rw [flatMap_pair_getElem_right _ _ _ k hk]
  rfl

/-- Witness for C2's amended theorem at `angular_step = 1`, iteration 0. -/
theorem C2_right_surface_witness :
    0 < numSteps 1 ∧
    ∃ l, generate_staircase 1 1 1 0 1 1 1 (fun _ => 0) = some l ∧
      l[1]? = some
        { X := (1 : ℝ)
          Y := (1 : ℝ)
          pos := (1.3 * 1 * Real.cos ((0 : ℕ) * 1 + 0.5 * 1),
                  1.3 * 1 * Real.sin ((0 : ℕ) * 1 + 0.5 * 1),
                  1 + 0.5 * 1 * Real.sin ((0 : ℕ) * 1 + 0.5 * 1))
          rpy := (0 * ((0 : ℝ) - 0.5), 0 * ((0 : ℝ) - 0.5),
                  0 * ((0 : ℝ) - 0.5) + ((0 : ℕ) * 1 + 0.5 * Real.pi))
          friction := (1 : ℝ)
          visible := true } :=
  ⟨numSteps_one_pos, C2_right_surface 1 1 1 0 1 1 1 (fun _ => 0) 0 numSteps_one_pos⟩

/-- C2 counterexample: at the first iteration (`θ = 0`) of
`generate_staircase 1 1 1 0 1 1 1` the emitted right surface has yaw
`0.5 * π` (the base-angle formula), not `0.5 + 0.5 * π` (the value the claim
predicts by evaluating the yaw formula at the offset angle `θ +
angular_step/2 = 0.5`). -/
theorem C2_right_surface_counterexample :
    ∃ l c, generate_staircase 1 1 1 0 1 1 1 (fun _ => 0) = some l ∧
      l[1]? = some c ∧ c.rpy.2.2 = 0.5 * Real.pi ∧
      c.rpy.2.2 ≠ 0.5 + 0.5 * Real.pi := by
  obtain ⟨l, hl, hget⟩ := C2_right_surface 1 1 1 0 1 1 1 (fun _ => 0) 0 numSteps_one_pos
  refine ⟨l, _, hl, by simpa using hget, by norm_num, by norm_num⟩

/-- Bound on the per-axis roughness perturbation for a stream value in
`[0, 1)`. -/
theorem pert_bound (roughness v : ℝ) (hρ : 0 ≤ roughness) (h0 : 0 ≤ v) (h1 : v < 1) :
    |roughness * (v - 0.5)| ≤ roughness / 2 := by
  rw [abs_mul, abs_of_nonneg hρ]
  have hv : |v - 0.5| ≤ 0.5 := abs_le.mpr ⟨by linarith, by linarith⟩
  nlinarith

/-- C3: the left surface of iteration `k` (list element `2*k`) has position
`(radius·cos θ, radius·sin θ, radius + 0.5·height·sin θ)` and rpy equal to
`(0, 0, θ + π/2)` plus an independent additive perturbation
`roughness * (uᵢ - 0.5)` per axis; for stream values in `[0, 1)` and
`0 ≤ roughness` each perturbation lies within `roughness/2` of zero, i.e. in
an interval of width `roughness` centered at zero. -/
theorem C3_left_surface (radius angular_step height roughness friction
    step_dim_x step_dim_y : ℝ) (u : RandStream) (k : ℕ)
    (hk : k < numSteps angular_step) (hρ : 0 ≤ roughness)
    (hu : ∀ i, 0 ≤ u i ∧ u i < 1) :
    ∃ l c, generate_staircase radius angular_step height roughness friction
        step_dim_x step_dim_y u = some l ∧
      l[2 * k]? = some c ∧
      c.pos = (radius * Real.cos ((k : ℝ) * angular_step),
               radius * Real.sin ((k : ℝ) * angular_step),
               radius + 0.5 * height * Real.sin ((k : ℝ) * angular_step)) ∧
      c.rpy = (roughness * (u (6 * k) - 0.5),
               roughness * (u (6 * k + 1) - 0.5),
               roughness * (u (6 * k + 2) - 0.5) + ((k : ℝ) * angular_step + 0.5 * Real.pi)) ∧
      |c.rpy.1| ≤ roughness / 2 ∧ |c.rpy.2.1| ≤ roughness / 2 ∧
      |c.rpy.2.2 - ((k : ℝ) * angular_step + 0.5 * Real.pi)| ≤ roughness / 2 := by
  refine ⟨_, _, generate_staircase_eq radius angular_step height roughness friction
    step_dim_x step_dim_y u (angular_step_ne_zero_of_lt_numSteps hk),
    flatMap_pair_getElem_left _ _ _ k hk, rfl, rfl, ?_, ?_, ?_⟩ <;>
    simp only [leftFootContact]
  · exact pert_bound roughness (u (6 * k)) hρ (hu _).1 (hu _).2
  · exact pert_bound roughness (u (6 * k + 1)) hρ (hu _).1 (hu _).2
  · simpa using pert_bound roughness (u (6 * k + 2)) hρ (hu _).1 (hu _).2

/-- Witness for C3 at `angular_step = 1`, iteration 0, zero stream. -/
theorem C3_left_surface_witness :
    0 < numSteps 1 ∧ (0 : ℝ) ≤ 0.5 ∧
    ∃ (l : List Contact) (c : Contact),
      generate_staircase 1 1 1 0.5 1 1 1 (fun _ => 0) = some l ∧
      l[0]? = some c ∧
      c.pos = (1 * Real.cos ((0 : ℕ) * 1), 1 * Real.sin ((0 : ℕ) * 1),
               1 + 0.5 * 1 * Real.sin ((0 : ℕ) * 1)) ∧
      c.rpy = (0.5 * ((0 : ℝ) - 0.5), 0.5 * ((0 : ℝ) - 0.5),
               0.5 * ((0 : ℝ) - 0.5) + ((0 : ℕ) * 1 + 0.5 * Real.pi)) ∧
      |c.rpy.1| ≤ 0.5 / 2 ∧ |c.rpy.2.1| ≤ 0.5 / 2 ∧
      |c.rpy.2.2 - ((0 : ℕ) * 1 + 0.5 * Real.pi)| ≤ 0.5 / 2 := by
  refine ⟨numSteps_one_pos, by norm_num, ?_⟩
  exact C3_left_surface 1 1 1 0.5 1 1 1 (fun _ => 0) 0 numSteps_one_pos
    (by norm_num) (fun i => by norm_num)

/-- C4 (amended): `generate_staircase` performs no validation of
`angular_step`: it succeeds for every nonzero `angular_step` (with
`angular_step < 0` it returns the empty sequence, and with
`angular_step ≥ 2π` it succeeds with exactly one iteration, i.e. two
surfaces); the only failing input is `angular_step = 0`, where `arange`
raises `ZeroDivisionError` — there is no `InvalidParameter` check. -/
theorem C4_no_validation (radius angular_step height roughness friction
    step_dim_x step_dim_y : ℝ) (u : RandStream) :
    (angular_step = 0 → generate_staircase radius angular_step height roughness friction
        step_dim_x step_dim_y u = none) ∧
    (angular_step ≠ 0 → ∃ l, generate_staircase radius angular_step height roughness friction
        step_dim_x step_dim_y u = some l) ∧
    (angular_step < 0 → generate_staircase radius angular_step height roughness friction
        step_dim_x step_dim_y u = some []) ∧
    (2 * Real.pi ≤ angular_step → ∃ l, generate_staircase radius angular_step height
        roughness friction step_dim_x step_dim_y u = some l ∧ l.length = 2) := by
  refine ⟨?_, ?_, ?_, ?_⟩
  · intro h
    subst h
    unfold generate_staircase arange
    rw [if_pos rfl]
    rfl
  · intro h
    obtain ⟨l, hl, -⟩ := generate_staircase_spec radius angular_step height roughness friction
      step_dim_x step_dim_y u h
    exact ⟨l, hl⟩
  · intro h
    rw [generate_staircase_eq radius angular_step height roughness friction
      step_dim_x step_dim_y u (ne_of_lt h)]
    have hn : numSteps angular_step = 0 :=
      Nat.ceil_eq_zero.mpr (le_of_lt (div_neg_of_pos_of_neg (by positivity) h))
    rw [hn]
    rfl
  · intro h
    have hpos : 0 < angular_step := lt_of_lt_of_le (by positivity) h
    obtain ⟨l, hl, hlen, -⟩ := generate_staircase_spec radius angular_step height roughness
      friction step_dim_x step_dim_y u (ne_of_gt hpos)
    have hn : numSteps angular_step = 1 := by
      unfold numSteps
      rw [Nat.ceil_eq_iff one_ne_zero]
      constructor
      · push_cast
        positivity
      · push_cast
        rw [div_le_one hpos]
        linarith
    exact ⟨l, hl, by rw [hlen, hn]⟩

/-- Witness for C4's amended theorem: `angular_step = 0` fails,
`angular_step = -1` yields the empty sequence, `angular_step = 7 ≥ 2π`
succeeds with two surfaces. -/
theorem C4_no_validation_witness :
    generate_staircase 1.4 0 1.4 0.5 0.7 0.2 0.1 (fun _ => 0) = none ∧
    generate_staircase 1.4 (-1) 1.4 0.5 0.7 0.2 0.1 (fun _ => 0) = some [] ∧
    2 * Real.pi ≤ 7 ∧
    ∃ l, generate_staircase 1.4 7 1.4 0.5 0.7 0.2 0.1 (fun _ => 0) = some l ∧
      l.length = 2 := by
  have h7 : 2 * Real.pi ≤ 7 := by nlinarith [Real.pi_lt_d2]
  exact ⟨(C4_no_validation 1.4 0 1.4 0.5 0.7 0.2 0.1 (fun _ => 0)).1 rfl,
    (C4_no_validation 1.4 (-1) 1.4 0.5 0.7 0.2 0.1 (fun _ => 0)).2.2.1 (by norm_num),
    h7,
    (C4_no_validation 1.4 7 1.4 0.5 0.7 0.2 0.1 (fun _ => 0)).2.2.2 h7⟩

/-- C4 counterexample: the claim predicts that `angular_step = 7 ≥ 2π` makes
the call fail with `InvalidParameter`, but the call succeeds and returns a
(two-surface) sequence. -/
theorem C4_validation_counterexample :
    2 * Real.pi ≤ 7 ∧
    generate_staircase 1.4 7 1.4 0.5 0.7 0.2 0.1 (fun _ => 0) ≠ none := by
  have h7 : 2 * Real.pi ≤ 7 := by nlinarith [Real.pi_lt_d2]
  obtain ⟨l, hl, -⟩ := generate_staircase_spec 1.4 7 1.4 0.5 0.7 0.2 0.1 (fun _ => 0)
    (by norm_num)
  exact ⟨h7, by rw [hl]; exact Option.some_ne_none l⟩

/-- Two flat lists of blocks agree when the blocks agree on the index range. -/
theorem flatMap_congr_range {α : Type} (f g : ℕ → List α) (n : ℕ)
    (h : ∀ k < n, f k = g k) :
    (List.range n).flatMap f = (List.range n).flatMap g := by
  induction n with
  | zero => rfl
  | succ n ih =>
    rw [List.range_succ, List.flatMap_append, List.flatMap_append,
      ih (fun k hk => h k (by omega))]
    simp [h n (by omega)]

/-- C7: `generate_staircase` is a pure function of its parameters and the
random stream — it performs no I/O — and its output depends only on the
finitely many stream values it consumes (indices `< 6 * numSteps`), so two
calls with identical parameters and an identically seeded random source
produce equal surface sequences. -/
theorem C7_deterministic (radius angular_step height roughness friction
    step_dim_x step_dim_y : ℝ) (u₁ u₂ : RandStream)
    (h : ∀ i < 6 * numSteps angular_step, u₁ i = u₂ i) :
    generate_staircase radius angular_step height roughness friction
        step_dim_x step_dim_y u₁ =
      generate_staircase radius angular_step height roughness friction
        step_dim_x step_dim_y u₂ := by
  by_cases hs : angular_step = 0
  · subst hs
    unfold generate_staircase arange
    rw [if_pos rfl]
    rfl
  · rw [generate_staircase_eq radius angular_step height roughness friction
      step_dim_x step_dim_y u₁ hs,
      generate_staircase_eq radius angular_step height roughness friction
      step_dim_x step_dim_y u₂ hs]
    congr 1
    apply flatMap_congr_range
    intro k hk
    have e0 := h (6 * k) (by omega)
    have e1 := h (6 * k + 1) (by omega)
    have e2 := h (6 * k + 2) (by omega)
    have e3 := h (6 * k + 3) (by omega)
    have e4 := h (6 * k + 4) (by omega)
    have e5 := h (6 * k + 5) (by omega)
    simp [leftFootContact, rightFootContact, e0, e1, e2, e3, e4, e5]

/-- Witness for C7 with two definitionally equal zero streams. -/
theorem C7_deterministic_witness :
    (∀ i < 6 * numSteps 0.5, (fun _ : ℕ => (0 : ℝ)) i = (fun _ : ℕ => (0 : ℝ)) i) ∧
    generate_staircase 1.4 0.5 1.4 0.5 0.7 0.2 0.1 (fun _ => 0) =
      generate_staircase 1.4 0.5 1.4 0.5 0.7 0.2 0.1 (fun _ => 0) :=
  ⟨fun _ _ => rfl,
    C7_deterministic 1.4 0.5 1.4 0.5 0.7 0.2 0.1 (fun _ => 0) (fun _ => 0)
      (fun _ _ => rfl)⟩

/-- C9: with `roughness = 0` every surface of iteration `k` — both the left
surface (element `2*k`) and the right surface (element `2*k+1`) — has
orientation exactly `(0, 0, θ + π/2)` at the iteration's base angle
`θ = k * angular_step`, and the generator's output does not depend on the
random stream's values at all. -/
theorem C9_zero_roughness (radius angular_step height roughness friction
    step_dim_x step_dim_y : ℝ) (u u' : RandStream) (hρ : roughness = 0)
    (k : ℕ) (hk : k < numSteps angular_step) :
    generate_staircase radius angular_step height roughness friction
        step_dim_x step_dim_y u =
      generate_staircase radius angular_step height roughness friction
        step_dim_x step_dim_y u' ∧
    ∃ (l : List Contact) (cL cR : Contact),
      generate_staircase radius angular_step height roughness friction
          step_dim_x step_dim_y u = some l ∧
      l[2 * k]? = some cL ∧ l[2 * k + 1]? = some cR ∧
      cL.rpy = (0, 0, (k : ℝ) * angular_step + 0.5 * Real.pi) ∧
      cR.rpy = (0, 0, (k : ℝ) * angular_step + 0.5 * Real.pi) := by
  subst hρ
  have hs := angular_step_ne_zero_of_lt_numSteps hk
  constructor
  · rw [generate_staircase_eq radius angular_step height 0 friction
      step_dim_x step_dim_y u hs,
      generate_staircase_eq radius angular_step height 0 friction
      step_dim_x step_dim_y u' hs]
    congr 1
    apply flatMap_congr_range
    intro j hj
    simp [leftFootContact, rightFootContact]
  · refine ⟨_, _, _, generate_staircase_eq radius angular_step height 0 friction
      step_dim_x step_dim_y u hs,
      flatMap_pair_getElem_left _ _ _ k hk,
      flatMap_pair_getElem_right _ _ _ k hk, ?_, ?_⟩ <;>
      simp [leftFootContact, rightFootContact]

/-- Witness for C9 at `angular_step = 1`, iteration 0, with two visibly
different streams. -/
theorem C9_zero_roughness_witness :
    (0 : ℝ) = 0 ∧ 0 < numSteps 1 ∧
    generate_staircase 1 1 1 0 1 1 1 (fun _ => 0) =
      generate_staircase 1 1 1 0 1 1 1 (fun _ => 0.25) ∧
    ∃ (l : List Contact) (cL cR : Contact),
      generate_staircase 1 1 1 0 1 1 1 (fun _ => 0) = some l ∧
      l[2 * 0]? = some cL ∧ l[2 * 0 + 1]? = some cR ∧
      cL.rpy = (0, 0, ((0 : ℕ) : ℝ) * 1 + 0.5 * Real.pi) ∧
      cR.rpy = (0, 0, ((0 : ℕ) : ℝ) * 1 + 0.5 * Real.pi) :=
  ⟨rfl, numSteps_one_pos,
    (C9_zero_roughness 1 1 1 0 1 1 1 (fun _ => 0) (fun _ => 0.25) rfl 0
      numSteps_one_pos).1,
    (C9_zero_roughness 1 1 1 0 1 1 1 (fun _ => 0) (fun _ => 0.25) rfl 0
      numSteps_one_pos).2⟩

/-- Model of the module-level `dash_graph_handles` (`walk.py` lines
117-121): set every even-indexed element of the handle list to `None`.
The in-place mutation is modelled by returning the new list. -/
def dash_graph_handles {α : Type} (handles : List (Option α)) : List (Option α) :=
  handles.mapIdx fun i h => if i % 2 = 0 then none else h

/-- State of a `TrajectoryDrawer` touched by its methods: the accumulated
line handles and the last drawn position. -/
structure TrajectoryDrawerState (α : Type) where
  handles : List (Option α)
  last_pos : Vec3

/-- Model of the method `TrajectoryDrawer.dash_graph_handles` (`walk.py`
lines 287-290), whose loop body is identical to the module-level function
applied to `self.handles`. -/
def TrajectoryDrawerState.dashGraphHandles {α : Type}
    (st : TrajectoryDrawerState α) : TrajectoryDrawerState α :=
  { st with handles := st.handles.mapIdx fun i h => if i % 2 = 0 then none else h }

/-- C10: both `dash_graph_handles` and the `TrajectoryDrawer` method set the
element at every even index to `None`, and leave the list's length and every
odd-indexed element unchanged; the method touches no other field. -/
theorem C10_dash_graph_handles (α : Type) (l : List (Option α))
    (st : TrajectoryDrawerState α) :
    (dash_graph_handles l).length = l.length ∧
    (∀ i, i < l.length → i % 2 = 0 → (dash_graph_handles l)[i]? = some none) ∧
    (∀ i, i % 2 ≠ 0 → (dash_graph_handles l)[i]? = l[i]?) ∧
    st.dashGraphHandles.handles = dash_graph_handles st.handles ∧
    st.dashGraphHandles.last_pos = st.last_pos := by
  refine ⟨List.length_mapIdx, ?_, ?_, rfl, rfl⟩
  · intro i hi hev
    rw [dash_graph_handles, List.getElem?_mapIdx, List.getElem?_eq_getElem hi]
    simp [hev]
  · intro i hodd
    rw [dash_graph_handles, List.getElem?_mapIdx]
    rcases Nat.lt_or_ge i l.length with h | h
    · rw [List.getElem?_eq_getElem h]
      simp [hodd]
    · rw [List.getElem?_eq_none (by simpa using h)]
      rfl

/-- Witness for C10 on a three-element handle list. -/
theorem C10_dash_graph_handles_witness :
    (dash_graph_handles [some 0, some 1, some 2]).length = 3 ∧
    (dash_graph_handles [some 0, some 1, some 2])[0]? = some none ∧
    (dash_graph_handles [some 0, some 1, some 2])[2]? = some none ∧
    (dash_graph_handles [some 0, some 1, some 2])[1]? = some (some 1) ∧
    (TrajectoryDrawerState.dashGraphHandles ⟨[some 5], (0, 0, 0)⟩).handles =
      dash_graph_handles [some (5 : ℕ)] ∧
    (TrajectoryDrawerState.dashGraphHandles ⟨[some 5], (0, 0, 0)⟩).last_pos =
      ((0 : ℝ), (0 : ℝ), (0 : ℝ)) := by
  obtain ⟨hlen, heven, hodd, hm, hp⟩ :=
    C10_dash_graph_handles ℕ [some 0, some 1, some 2] ⟨[some 5], (0, 0, 0)⟩
  exact ⟨hlen, heven 0 (by decide) rfl, heven 2 (by decide) rfl,
    by rw [hodd 1 (by decide)]; rfl, hm, hp⟩

/-- Name keying an IK task in `robot.ik`; the foot tasks are keyed by the
link names `robot.left_foot.name` and `robot.right_foot.name`, every other
task (com, posture, ...) by some other identifier. -/
inductive TaskName where
  | leftFoot
  | rightFoot
  | otherName (id : String)
deriving DecidableEq

/-- Payload of an IK task: a `ContactTask` targets the contact surface
assigned to the foot, a `LinkPoseTask` targets the free-floating foot
target `fsm.free_foot`, and the remaining task kinds are opaque here. -/
inductive TaskKind where
  | contactTask (target : Contact)
  | linkPoseTask
  | otherKind

/-- An entry of the active IK task set. -/
structure IKTask where
  name : TaskName
  kind : TaskKind

/-- Stance fields consumed by `update_robot_ik`: the contact surface
assigned to each foot (`none` = the foot is free). -/
structure Stance where
  left_foot : Option Contact
  right_foot : Option Contact

/-- Model of `robot.ik.remove_task(name)`: drop the tasks with that name. -/
def remove_task (tasks : List IKTask) (n : TaskName) : List IKTask :=
  tasks.filter fun t => t.name ≠ n

/-- Model of `robot.ik.add_task(task)`: append the task. -/
def add_task (tasks : List IKTask) (t : IKTask) : List IKTask :=
  tasks ++ [t]

/-- Model of the task-retarget callback `update_robot_ik` (`walk.py` lines
139-156) as a transformation of the active task set: remove the previous
left and right foot tasks, build the replacement task for each foot from
the current stance (a contact task when the foot has an assigned surface,
else a free-link-pose task), and add both back. The Python code executes
this entire body inside a single `with robot_lock:` acquisition, and the
kinematics thread acquires the same lock around each solve, so the whole
transformation is one atomic step with respect to that thread. -/
def update_robot_ik (stance : Stance) (tasks : List IKTask) : List IKTask :=
  let tasks1 := remove_task tasks TaskName.leftFoot
  let tasks2 := remove_task tasks1 TaskName.rightFoot
  let left_foot_task : IKTask :=
    match stance.left_foot with
    | some c => ⟨TaskName.leftFoot, TaskKind.contactTask c⟩
    | none => ⟨TaskName.leftFoot, TaskKind.linkPoseTask⟩
  let right_foot_task : IKTask :=
    match stance.right_foot with
    | some c => ⟨TaskName.rightFoot, TaskKind.contactTask c⟩
    | none => ⟨TaskName.rightFoot, TaskKind.linkPoseTask⟩
  add_task (add_task tasks2 left_foot_task) right_foot_task

/-- Number of foot tasks (tasks keyed by a foot link name) in a task set. -/
def footTaskCount (tasks : List IKTask) : ℕ :=
  tasks.countP fun t =>
    decide (t.name = TaskName.leftFoot ∨ t.name = TaskName.rightFoot)

/-- Task sets observable by the kinematics solver thread: both the retarget
callback and each solve hold `robot_lock`, so the solver only ever reads the
task set between complete callback executions — that is, one of the states
of the scan of `update_robot_ik` over the per-tick stance sequence. -/
def observableTaskSets (init : List IKTask) (stances : List Stance) :
    List (List IKTask) :=
  stances.scanl (fun ts st => update_robot_ik st ts) init

/-- The retarget callback re-adds exactly one task per foot, whatever the
previous task set and stance: its result always holds both foot tasks. -/
theorem two_le_footTaskCount_update (stance : Stance) (tasks : List IKTask) :
    2 ≤ footTaskCount (update_robot_ik stance tasks) := by
  unfold update_robot_ik add_task footTaskCount
  rcases stance.left_foot with _ | c <;> rcases stance.right_foot with _ | c' <;>
    simp [List.countP_append, List.countP_cons]

/-- C5: the removal of the previous foot tasks, the construction of the
replacement tasks from the current stance, and the re-addition of both
happen inside one acquisition of `robot_lock`, so every task set the
kinematics solver thread can observe — the initial set or the output of a
complete callback execution — contains at least two foot tasks; moreover a
completed callback yields at least two foot tasks from any input set. -/
theorem C5_retarget_atomic (init : List IKTask) (stances : List Stance)
    (hinit : 2 ≤ footTaskCount init) :
    (∀ (stance : Stance) (tasks : List IKTask),
      2 ≤ footTaskCount (update_robot_ik stance tasks)) ∧
    ∀ ts ∈ observableTaskSets init stances, 2 ≤ footTaskCount ts := by
  refine ⟨two_le_footTaskCount_update, ?_⟩
  unfold observableTaskSets
  induction stances generalizing init with
  | nil =>
    intro ts hts
    rw [List.scanl_nil, List.mem_singleton] at hts
    exact hts ▸ hinit
  | cons st rest ih =>
    intro ts hts
    rw [List.scanl_cons] at hts
    rcases List.mem_append.mp hts with h | h
    · exact (List.mem_singleton.mp h) ▸ hinit
    · exact ih (update_robot_ik st init) (two_le_footTaskCount_update st init) ts h

/-- Witness for C5: an initial set holding the two foot tasks, one tick
with a double-support stance on a concrete surface and one with both feet
free. -/
theorem C5_retarget_atomic_witness :
    2 ≤ footTaskCount [⟨TaskName.leftFoot, TaskKind.linkPoseTask⟩,
      ⟨TaskName.rightFoot, TaskKind.linkPoseTask⟩] ∧
    ∀ ts ∈ observableTaskSets
      [⟨TaskName.leftFoot, TaskKind.linkPoseTask⟩,
       ⟨TaskName.rightFoot, TaskKind.linkPoseTask⟩]
      [⟨some ⟨0.2, 0.1, (0, 0, 0), (0, 0, 0), 0.7, true⟩, none⟩, ⟨none, none⟩],
      2 ≤ footTaskCount ts := by
  have hinit : 2 ≤ footTaskCount [⟨TaskName.leftFoot, TaskKind.linkPoseTask⟩,
      ⟨TaskName.rightFoot, TaskKind.linkPoseTask⟩] := by
    simp [footTaskCount, List.countP_cons]
  exact ⟨hinit, (C5_retarget_atomic _ _ hinit).2⟩

/-- Handle returned by `pymanoid.draw_force(c, fc, scale)` for one contact
force. -/
structure ForceHandle where
  contact : Contact
  force : Vec3
  scale : ℝ

/-- Alarm background color set on an infeasible tick (`[.8, .4, .4]`). -/
def alarmColor : Vec3 := (0.8, 0.4, 0.4)

/-- Calm background color restored 0.2 s after an alarm (`[.6, .6, .8]`). -/
def calmColor : Vec3 := (0.6, 0.6, 0.8)

/-- Mutable state of `ForceDrawer`: the time of the last background switch
(if an alarm is pending) and the currently drawn force handles. -/
structure ForceDrawerState where
  last_bkgnd_switch : Option ℝ
  handles : List ForceHandle

/-- Model of `ForceDrawer.on_tick` (`walk.py` lines 166-184). Inputs: the
drawer state, the result of `fsm.cur_stance.find_supporting_forces` (`none`
models an infeasibility report; the Python test `if not support` treats an
empty list the same way), and the current wall-clock time. Output: the new
state and the list of `viewer.SetBkgndColor` calls issued on this tick, in
order. -/
noncomputable def forceDrawerOnTick (st : ForceDrawerState)
    (support : Option (List (Contact × Vec3))) (now : ℝ) :
    ForceDrawerState × List Vec3 :=
  let step1 : ForceDrawerState × List Vec3 :=
    match support with
    | none => (⟨some now, []⟩, [alarmColor])
    | some [] => (⟨some now, []⟩, [alarmColor])
    | some l =>
      (⟨st.last_bkgnd_switch, l.map fun cf => ⟨cf.1, cf.2, 0.0025⟩⟩, [])
  match step1.1.last_bkgnd_switch with
  | some t =>
    if 0.2 < now - t then (⟨none, step1.1.handles⟩, step1.2 ++ [calmColor])
    else step1
  | none => step1

/-- C6: on a tick where the support-force computation reports infeasibility
(no support, or an empty support set), `ForceDrawer.on_tick` clears its
drawn force handles and raises the visible alarm — exactly one background
color change, to the alarm color, not reset within the same tick — and
draws no approximate or clamped force distribution. -/
theorem C6_infeasible_alarm (st : ForceDrawerState)
    (support : Option (List (Contact × Vec3))) (now : ℝ)
    (h : support = none ∨ support = some []) :
    forceDrawerOnTick st support now = (⟨some now, []⟩, [alarmColor]) := by
  have hlt : ¬(0.2 : ℝ) < now - now := by norm_num
  rcases h with h | h <;> subst h <;>
    exact if_neg hlt

/-- Witness for C6 on a concrete infeasible tick. -/
theorem C6_infeasible_alarm_witness :
    forceDrawerOnTick ⟨none, []⟩ none 0 = (⟨some 0, []⟩, [alarmColor]) :=
  C6_infeasible_alarm ⟨none, []⟩ none 0 (Or.inl rfl)

/-- Per-tick handle state of `TubeDrawer`. -/
structure TubeDrawerState (α : Type) where
  comdd_handle : List α
  cone_handles : List α
  poly_handles : List α

/-- Model of `TubeDrawer.on_tick` (`walk.py` lines 302-312): the primal
polytope stage and the dual cone stage are each wrapped in their own
`try/except` that prints the failure message and continues, and the
COM-acceleration stage then runs unconditionally. The two fallible stages
are given as `Except` results (raised message, or handles produced), the
always-succeeding COM-acceleration stage as its handles; the output is the
new handle state and the printed failure messages. -/
def tubeDrawerOnTick {α : Type} (st : TubeDrawerState α)
    (primal dual : Except String (List α)) (comdd : List α) :
    TubeDrawerState α × List String :=
  let step1 : TubeDrawerState α × List String :=
    match primal with
    | Except.ok hs => ({ st with poly_handles := hs }, [])
    | Except.error e => (st, ["Drawing of polytopes failed: " ++ e])
  let step2 : TubeDrawerState α × List String :=
    match dual with
    | Except.ok hs => ({ step1.1 with cone_handles := hs }, step1.2)
    | Except.error e => (step1.1, step1.2 ++ ["Drawing of dual cones failed: " ++ e])
  ({ step2.1 with comdd_handle := comdd }, step2.2)

/-- Modelled from the spec: the per-tick dispatch of the scheduler
(`wpg.simulation.Simulation`), which belongs to this repository but is not
under `src/`. Per spec §4.2, a process whose `on_tick` fails has the
failure logged and only the remainder of its own work skipped; the
scheduler continues with the next process. A process is modelled by its
per-tick outcome; `runTick` records, in registration order, each process's
logged failure (`none` = the tick callback succeeded). -/
def runTick (procs : List (ℕ → Except String Unit)) (k : ℕ) :
    List (Option String) :=
  procs.map fun p =>
    match p k with
    | Except.ok _ => none
    | Except.error e => some e

/-- Modelled from the spec: `step(n)` runs ticks `0, ..., n-1`, invoking
every registered process once per tick regardless of other processes'
failures. -/
def runSchedule (procs : List (ℕ → Except String Unit)) (n : ℕ) :
    List (List (Option String)) :=
  (List.range n).map fun k => runTick procs k

/-- C8: a process failure is logged and isolated. Scheduler side (modelled
from the spec, the scheduler is not under `src/`): on every tick `k < n` of
`step(n)` each registered process is invoked — the tick's record has one
entry per process, and process `i`'s entry is determined by process `i`'s
own outcome alone, so failures of other processes on tick `k`, or on
earlier ticks, never abort it. `TubeDrawer.on_tick` side (from `src`): when
the primal polytope stage raises, the failure is printed and both the dual
cone stage and the COM-acceleration stage still execute. -/
theorem C8_failure_isolation {α : Type} :
    (∀ (procs : List (ℕ → Except String Unit)) (n k : ℕ), k < n →
      (runSchedule procs n)[k]? = some (runTick procs k) ∧
      (runTick procs k).length = procs.length ∧
      ∀ (i : ℕ) (p : ℕ → Except String Unit), procs[i]? = some p →
        (runTick procs k)[i]? =
          some (match p k with
                | Except.ok _ => none
                | Except.error e => some e)) ∧
    ∀ (st : TubeDrawerState α) (e : String) (dual : Except String (List α))
      (comdd : List α),
      (tubeDrawerOnTick st (Except.error e) dual comdd).1.comdd_handle = comdd ∧
      (∀ hs, dual = Except.ok hs →
        (tubeDrawerOnTick st (Except.error e) dual comdd).1.cone_handles = hs) ∧
      ("Drawing of polytopes failed: " ++ e) ∈
        (tubeDrawerOnTick st (Except.error e) dual comdd).2 := by
  constructor
  · intro procs n k hk
    refine ⟨?_, List.length_map _ _, ?_⟩
    · rw [runSchedule, List.getElem?_map, List.getElem?_range hk]
      rfl
    · intro i p hp
      rw [runTick, List.getElem?_map, hp]
      rfl
  · intro st e dual comdd
    refine ⟨rfl, ?_, ?_⟩
    · intro hs hdual
      subst hdual
      rfl
    · rcases dual with e' | hs <;> simp [tubeDrawerOnTick]

/-- Witness for C8: two processes, the first failing on every tick; the
second still runs on tick 1, and the tube drawer still draws the dual cones
and the COM acceleration when the primal stage raises. -/
theorem C8_failure_isolation_witness :
    (runSchedule [fun _ => Except.error "boom", fun _ => Except.ok ()] 2)[1]? =
      some (runTick [fun _ => Except.error "boom", fun _ => Except.ok ()] 1) ∧
    (runTick [fun _ => Except.error "boom", fun _ => Except.ok ()] 1).length = 2 ∧
    (runTick [fun _ => Except.error "boom", fun _ => Except.ok ()] 1)[1]? =
      some none ∧
    (tubeDrawerOnTick (⟨[], [], []⟩ : TubeDrawerState ℕ) (Except.error "boom")
        (Except.ok [7]) [3]).1.comdd_handle = [3] ∧
    (tubeDrawerOnTick (⟨[], [], []⟩ : TubeDrawerState ℕ) (Except.error "boom")
        (Except.ok [7]) [3]).1.cone_handles = [7] ∧
    ("Drawing of polytopes failed: " ++ "boom") ∈
      (tubeDrawerOnTick (⟨[], [], []⟩ : TubeDrawerState ℕ) (Except.error "boom")
        (Except.ok [7]) [3]).2 := by
  obtain ⟨hsched, htube⟩ := C8_failure_isolation (α := ℕ)
  obtain ⟨h1, h2, h3⟩ :=
    hsched [fun _ => Except.error "boom", fun _ => Except.ok ()] 2 1 (by omega)
  obtain ⟨t1, t2, t3⟩ :=
    htube ⟨[], [], []⟩ "boom" (Except.ok [7]) [3]
  exact ⟨h1, by simpa using h2, h3 1 (fun _ => Except.ok ()) rfl,
    t1, t2 [7] rfl, t3⟩

end Walk
